import Mathlib

/-!
Shallow embedding of the invoice-generator repository core:
column resolution, WIP-entry extraction (src/sheets_reader_enhanced.py),
invoice aggregation and HTML rendering (src/invoice_generator.py),
and the batched billed-status update (src/sheets_reader_enhanced.py).

Spreadsheet cell values are strings; Python float values are modelled as
rationals; diagnostic prints are modelled as a returned list of warning
row numbers; remote API calls are modelled as an explicit trace.
-/

namespace InvoiceGen

/-- Python str.strip: drop surrounding whitespace characters. -/
def pyStrip (s : String) : String :=
  ⟨((s.data.dropWhile Char.isWhitespace).reverse.dropWhile
      Char.isWhitespace).reverse⟩

/-- Python str.lower on the ASCII letters these sheets contain. -/
def pyLower (s : String) : String :=
  ⟨s.data.map Char.toLower⟩

/-- Python str.upper on the ASCII letters these sheets contain. -/
def pyUpper (s : String) : String :=
  ⟨s.data.map Char.toUpper⟩

/-- Python str.strip then str.upper composed as in the source. -/
def pyStripUpper (s : String) : String :=
  pyUpper (pyStrip s)

/-- Normalisation applied to headers and aliases in the source:
h.lower().strip(). -/
def normName (s : String) : String :=
  pyStrip (pyLower s)

/-- Digits of a decimal literal folded to a natural number. -/
def digitsToNat (l : List Char) : Nat :=
  l.foldl (fun a c => a * 10 + (c.toNat - 48)) 0

/-- Model of the Python builtin float() applied to an already stripped
cell string: optional sign, decimal digits, at most one decimal point,
at least one digit overall. Exponent forms and inf/nan, which never occur
in the spreadsheets this code reads, are outside the modelled subset and
parse to none. -/
def parseFloat (s : String) : Option ℚ :=
  let p : (Bool × List Char) :=
    match s.data with
    | '-' :: rest => (true, rest)
    | '+' :: rest => (false, rest)
    | cs => (false, cs)
  let neg := p.1
  let cs := p.2
  let intPart := cs.takeWhile Char.isDigit
  let rest := cs.dropWhile Char.isDigit
  let signed : ℚ → ℚ := fun q => if neg then -q else q
  match rest with
  | [] =>
      if intPart.isEmpty then none
      else some (signed (mkRat (digitsToNat intPart) 1))
  | '.' :: frac =>
      if frac.all Char.isDigit && !(intPart.isEmpty && frac.isEmpty) then
        some (signed (mkRat
          (digitsToNat intPart * 10 ^ frac.length + digitsToNat frac)
          (10 ^ frac.length)))
      else none
  | _ => none

/-- SheetsReaderEnhanced._find_column_index, inner loop over the candidate
names with the lower-cased stripped header list precomputed. -/
def find_column_index_aux (headers_lower : List String) (hlen : Nat) :
    List String → Nat
  | [] => hlen
  | name :: rest =>
      let name_lower := normName name
      if headers_lower.contains name_lower then
        headers_lower.indexOf name_lower
      else
        find_column_index_aux headers_lower hlen rest

/-- SheetsReaderEnhanced._find_column_index: first alias (in alias order)
whose lower-cased stripped form occurs among the lower-cased stripped
headers wins, and the index of its first occurrence is returned;
when no alias matches, the header count is returned as a sentinel. -/
def find_column_index (headers : List String) (possible_names : List String) : Nat :=
  find_column_index_aux (headers.map normName) headers.length possible_names

/-- One extracted WIP entry, as built in get_wip_entries. -/
structure WorkEntry where
  date : String
  hours : ℚ
  category : String
  description : String
  persons : String
  invoice : String
  row_number : Nat
  deriving Repr, DecidableEq

/-- The seven column indices resolved at the top of get_wip_entries. -/
structure ColumnMap where
  date_col : Nat
  hours_col : Nat
  category_col : Nat
  task_col : Nat
  persons_col : Nat
  invoice_col : Nat
  paid_col : Nat
  deriving Repr, DecidableEq

/-- Column resolution exactly as in get_wip_entries. -/
def resolve_columns (headers : List String) : ColumnMap where
  date_col := find_column_index headers ["date"]
  hours_col := find_column_index headers ["hours"]
  category_col := find_column_index headers ["category"]
  task_col := find_column_index headers ["task", "work", "task/work"]
  persons_col := find_column_index headers ["persons"]
  invoice_col := find_column_index headers ["invoice"]
  paid_col := find_column_index headers ["paid", "status"]

/-- The max(...) of the seven resolved indices used by the row-length guard. -/
def ColumnMap.maxCol (c : ColumnMap) : Nat :=
  max c.date_col (max c.hours_col (max c.category_col (max c.task_col
    (max c.persons_col (max c.invoice_col c.paid_col)))))

/-- Guarded cell read: row[i].strip() if i < len(row) else dflt. -/
def cellOr (row : List String) (i : Nat) (dflt : String) : String :=
  if i < row.length then pyStrip (row.getD i "") else dflt

/-- Body of the row loop of get_wip_entries on the data rows (header row
already removed), enumerating from row index idx as the source enumerates
from 2. Returns the accepted entries together with the row numbers that
produced an invalid-hours warning print. -/
def processRows (c : ColumnMap) : Nat → List (List String) →
    List WorkEntry × List Nat
  | _, [] => ([], [])
  | idx, row :: rest =>
      let acc := processRows c (idx + 1) rest
      if row.length ≤ c.maxCol then acc
      else
        let paid_status := if c.paid_col < row.length then
          pyStripUpper (row.getD c.paid_col "") else ""
        if paid_status = "WIP" then
          let date := cellOr row c.date_col ""
          let hours_str := cellOr row c.hours_col "0"
          let category := cellOr row c.category_col "Enhancement"
          let description := cellOr row c.task_col ""
          let persons := cellOr row c.persons_col ""
          let invoice := cellOr row c.invoice_col ""
          match parseFloat hours_str with
          | none => (acc.1, idx :: acc.2)
          | some hours =>
              if hours ≤ 0 ∨ date = "" ∨ description = "" then acc
              else
                (⟨date, hours, category, description, persons, invoice, idx⟩
                  :: acc.1, acc.2)
        else acc

/-- SheetsReaderEnhanced.get_wip_entries on a fetched all_values grid:
resolve columns from the header row, then scan the data rows from row
number 2. An empty grid yields no entries. -/
def get_wip_entries (all_values : List (List String)) :
    List WorkEntry × List Nat :=
  match all_values with
  | [] => ([], [])
  | headers :: dataRows => processRows (resolve_columns headers) 2 dataRows

/-- A spreadsheet as a named collection of worksheets, each a grid of
cell strings. -/
def Workbook := List (String × List (List String))

/-- Worksheet lookup: spreadsheet.worksheet(name), none models the
gspread.WorksheetNotFound exception. -/
def findWorksheet (wb : Workbook) (name : String) :
    Option (List (List String)) :=
  (wb.find? (fun p => p.1 == name)).map (·.2)

/-- get_wip_entries including the worksheet lookup: the only failure that
propagates out of the extraction is the worksheet not being found, which
the source re-raises as an exception. -/
def get_wip_entries_ws (wb : Workbook) (name : String) :
    Except String (List WorkEntry × List Nat) :=
  match findWorksheet wb name with
  | none => .error ("Worksheet " ++ name ++ " not found in spreadsheet")
  | some all_values => .ok (get_wip_entries all_values)

/-- The bill-to block copied from config["client"]. -/
structure BillTo where
  name : String
  address : String
  city_state_zip : String
  customer_id : String
  deriving Repr, DecidableEq

/-- The payment block copied from config["company"]. -/
structure PaymentInfo where
  name : String
  address : String
  zelle : String
  deriving Repr, DecidableEq

/-- The configuration fields generate_invoice reads. -/
structure Config where
  hourly_rate : ℤ
  discount : ℤ
  terms : String
  client : BillTo
  sales_rep : String
  company : PaymentInfo
  deriving Repr, DecidableEq

/-- The summary block of the invoice data dictionary. -/
structure InvoiceSummary where
  total_hours : ℚ
  hourly_rate : ℤ
  original_rate : ℤ
  discount_per_hour : ℤ
  subtotal : ℚ
  balance_due : ℚ
  deriving Repr, DecidableEq

/-- The invoice data dictionary returned by generate_invoice. -/
structure InvoiceData where
  invoice_number : String
  invoice_date : String
  bill_to : BillTo
  sales_rep : String
  terms : String
  work_entries : List WorkEntry
  summary : InvoiceSummary
  payment_info : PaymentInfo
  deriving Repr, DecidableEq

/-- Lexicographic strict comparison of character lists by code point,
the order Python uses to compare strings. -/
def charListLt : List Char → List Char → Bool
  | [], [] => false
  | [], _ :: _ => true
  | _ :: _, [] => false
  | a :: as, b :: bs =>
      if a < b then true
      else if b < a then false
      else charListLt as bs

/-- Python string comparison: lexicographic on the code point sequences. -/
def pyStrLt (a b : String) : Bool :=
  charListLt a.data b.data

/-- Python max over a list of strings (lexicographic by code point):
first element as the running value, replaced only by strictly greater
later elements. Python raises on an empty sequence; the callers of this
model only apply it to non-empty lists, where the empty-case default is
never reached. -/
def listMaxStr : List String → String
  | [] => ""
  | d :: ds => ds.foldl (fun a b => if pyStrLt a b then b else a) d

/-- InvoiceGenerator.generate_invoice. -/
def generate_invoice (cfg : Config) (wip_entries : List WorkEntry)
    (invoice_number : String) : InvoiceData :=
  let total_hours : ℚ := (wip_entries.map (·.hours)).sum
  let hourly_rate := cfg.hourly_rate
  let discount_per_hour := cfg.discount
  let original_rate := hourly_rate + discount_per_hour
  let subtotal : ℚ := total_hours * (hourly_rate : ℚ)
  let balance_due := subtotal
  let invoice_date := listMaxStr (wip_entries.map (·.date))
  { invoice_number := invoice_number
    invoice_date := invoice_date
    bill_to := cfg.client
    sales_rep := cfg.sales_rep
    terms := cfg.terms
    work_entries := wip_entries
    summary :=
      { total_hours := total_hours
        hourly_rate := hourly_rate
        original_rate := original_rate
        discount_per_hour := discount_per_hour
        subtotal := subtotal
        balance_due := balance_due }
    payment_info := cfg.company }

/-- One repeatCell formatting request as built in
update_wip_to_billed_with_formatting: the target range plus the fixed
orange backgroundColor (red 1, green 0.6). -/
structure FormatRequest where
  sheetId : Nat
  startRowIndex : Nat
  endRowIndex : Nat
  startColumnIndex : Nat
  endColumnIndex : Nat
  red : ℚ
  green : ℚ
  deriving Repr, DecidableEq

/-- A remote mutation issued against the spreadsheet: either the batched
value write (worksheet.batch_update) or the batched formatting request
(service.spreadsheets().batchUpdate). -/
inductive RemoteCall where
  | valueBatch (updates : List (String × String))
  | formatBatch (requests : List FormatRequest)
  deriving Repr, DecidableEq

/-- A1 cell address as built in the source: chr(64 + col) followed by the
row number, for a 1-based column index. -/
def cellAddress (col1 : Nat) (row : Nat) : String :=
  String.singleton (Char.ofNat (64 + col1)) ++ toString row

/-- The value update for one entry: set the status cell to Billed. -/
def valueUpdateFor (status_col_index : Nat) (e : WorkEntry) :
    String × String :=
  (cellAddress status_col_index e.row_number, "Billed")

/-- The formatting request for one entry: highlight columns A through G
(0-based indices 0 to 7 exclusive) of its row in orange. -/
def formatRequestFor (e : WorkEntry) : FormatRequest where
  sheetId := 0
  startRowIndex := e.row_number - 1
  endRowIndex := e.row_number
  startColumnIndex := 0
  endColumnIndex := 7
  red := 1
  green := 3 / 5

/-- SheetsReaderEnhanced.update_wip_to_billed_with_formatting, with the
remote side modelled explicitly: headers is the fetched header row, and
valueOk and formatOk say whether the two remote batched calls succeed
when issued. The result is the trace of issued remote calls in order
together with the returned boolean. Entries whose row_number is 0 model
the falsy row numbers the source loop skips. A raised remote error is
caught by the enclosing try and turned into a False return with no
further calls, leaving the already-issued value write in place. -/
def update_wip_to_billed_with_formatting (headers : List String)
    (wip_entries : List WorkEntry) (valueOk formatOk : Bool) :
    List RemoteCall × Bool :=
  let status_col_index := find_column_index headers ["paid", "status"] + 1
  if headers.length < status_col_index then ([], false)
  else
    let listed := wip_entries.filter (fun e => e.row_number ≠ 0)
    let value_updates := listed.map (valueUpdateFor status_col_index)
    let format_requests := listed.map formatRequestFor
    if value_updates.isEmpty then ([], false)
    else if !valueOk then ([RemoteCall.valueBatch value_updates], false)
    else if format_requests.isEmpty then
      ([RemoteCall.valueBatch value_updates], true)
    else
      ([RemoteCall.valueBatch value_updates,
        RemoteCall.formatBatch format_requests], formatOk)

/-- Insert a comma after every three characters of a reversed digit
list: the counter starts at 2 and a comma is placed after each run of
three characters that is followed by more characters. -/
def commaRevAux : List Char → Nat → List Char
  | [], _ => []
  | [c], _ => [c]
  | c :: rest, 0 => c :: ',' :: commaRevAux rest 2
  | c :: rest, n + 1 => c :: commaRevAux rest n

/-- Comma grouping of a reversed digit list in runs of three. -/
def commaRev (l : List Char) : List Char :=
  commaRevAux l 2

/-- Decimal digits of a natural number grouped in threes by commas. -/
def commaGroupNat (n : Nat) : String :=
  String.mk ((commaRev (toString n).data.reverse).reverse)

/-- Round to the nearest integer, halves to the even neighbour, as the
Python fixed-point float format does. The floor is num fdiv den, the
fractional remainder (q minus the floor) is compared with one half by
comparing twice its numerator against the denominator. -/
def roundHalfEven (q : ℚ) : ℤ :=
  let n := q.num.fdiv (q.den : ℤ)
  let numr := q.num - n * (q.den : ℤ)
  if 2 * numr < (q.den : ℤ) then n
  else if (q.den : ℤ) < 2 * numr then n + 1
  else if n % 2 = 0 then n else n + 1

/-- The Python format specification ,.0f: fixed point with zero decimal
places and comma thousands grouping. -/
def pyFormatComma0 (q : ℚ) : String :=
  let n := roundHalfEven q
  (if n < 0 then "-" else "") ++ commaGroupNat n.natAbs

/-- Least exponent k (searched up to 60) with q times 10 to the k an
integer, i.e. with the reduced denominator dividing 10 to the k; every
IEEE double has one, so the none case is unreachable on float-valued
inputs. -/
def decExponent (q : ℚ) : Option Nat :=
  (List.range 61).find? (fun k => q.den ∣ 10 ^ k)

/-- Pad a digit string with leading zeros up to the given length. -/
def padLeftZeros (s : String) (len : Nat) : String :=
  if s.length < len then
    String.mk (List.replicate (len - s.length) '0') ++ s
  else s

/-- Model of the Python str() of a float value: the exact decimal
expansion with a trailing .0 on integral values (Python prints the
shortest round-tripping decimal, which for the short decimal-valued
floats in these sheets is the exact expansion). Rationals with no finite
decimal expansion never arise from float values; they fall back to the
raw rational rendering. -/
def pyFloatStr (q : ℚ) : String :=
  match decExponent q with
  | some 0 => toString q.num ++ ".0"
  | some k =>
      let scaled : ℤ := q.num * ((10 ^ k / q.den : Nat) : ℤ)
      let sign := if scaled < 0 then "-" else ""
      let ds := padLeftZeros (toString scaled.natAbs) (k + 1)
      sign ++ String.mk (ds.data.take (ds.length - k)) ++ "." ++
        String.mk (ds.data.drop (ds.length - k))
  | none => toString q.num ++ "/" ++ toString q.den

/-- Template text of generate_html up to the invoice number in the title. -/
def seg1 : String := "<!DOCTYPE html>\n<html>\n<head>\n    <meta charset=\"UTF-8\">\n    <title>Invoice "

/-- Template text from the title through the style block to the logo data. -/
def seg2 : String := "</title>\n    <style>\n        body \x7b\n            font-family: Arial, sans-serif;\n            margin: 20px;\n            color: #333;\n            line-height: 1.4;\n        \x7d\n        .header \x7b\n            display: flex;\n            justify-content: space-between;\n            align-items: flex-start;\n            margin-bottom: 30px;\n        \x7d\n        .logo \x7b\n            max-width: 300px;\n            height: auto;\n        \x7d\n        .invoice-title \x7b\n            font-size: 48px;\n            font-weight: bold;\n            color: #666;\n            text-align: right;\n        \x7d\n        .invoice-info \x7b\n            margin-bottom: 20px;\n        \x7d\n        .invoice-info div \x7b\n            margin-bottom: 8px;\n        \x7d\n        table \x7b\n            width: 100%;\n            border-collapse: collapse;\n            margin-bottom: 20px;\n        \x7d\n        th, td \x7b\n            border: 1px solid #ccc;\n            padding: 8px;\n            text-align: left;\n        \x7d\n        th \x7b\n            background-color: #f0f0f0;\n            font-weight: bold;\n        \x7d\n        .amount \x7b\n            text-align: right;\n        \x7d\n        .payment-info \x7b\n            margin: 20px 0;\n            line-height: 1.6;\n        \x7d\n        .totals-table \x7b\n            width: 300px;\n            float: right;\n            margin-top: 20px;\n        \x7d\n        .time-details \x7b\n            clear: both;\n            margin-top: 40px;\n        \x7d\n        .time-details h2 \x7b\n            font-size: 24px;\n            margin-bottom: 15px;\n            color: #333;\n        \x7d\n    </style>\n</head>\n<body>\n    <div class=\"header\">\n        <img src=\"data:image/png;base64,"

/-- Template text from the logo to the invoice number of the info block. -/
def seg3 : String := "\" alt=\"W3EVOLUTIONS\" class=\"logo\">\n        <div class=\"invoice-title\">INVOICE</div>\n    </div>\n\n    <div class=\"invoice-info\">\n        <div><strong>Invoice No.:</strong> "

/-- Template text before the bill-to name. -/
def seg4 : String := "</div>\n        <div><strong>Bill To:</strong> "

/-- Template text before the bill-to address. -/
def seg5 : String := "</div>\n        <div>"

/-- Template text before the customer id. -/
def seg6 : String := "</div>\n        <div><strong>Customer ID:</strong> "

/-- Template text through the first table header to the invoice date. -/
def seg7 : String := "</div>\n    </div>\n\n    <table>\n        <thead>\n            <tr>\n                <th>Date</th>\n                <th>Invoice No.</th>\n                <th>Sales Rep.</th>\n                <th>Ship Via</th>\n                <th>Terms</th>\n                <th>Date Due</th>\n            </tr>\n        </thead>\n        <tbody>\n            <tr>\n                <td>"

/-- Template text of one cell separator in the first body row. -/
def seg8 : String := "</td>\n                <td>"

/-- Template text between the sales rep and the terms cells. -/
def seg9 : String := "</td>\n                <td>Email</td>\n                <td>"

/-- Template text through the charge table header to the quantity cell. -/
def seg10 : String := "</td>\n                <td>-</td>\n            </tr>\n        </tbody>\n    </table>\n\n    <table>\n        <thead>\n            <tr>\n                <th>Quantity</th>\n                <th>Item</th>\n                <th>Description</th>\n                <th>Discount</th>\n                <th>Taxable</th>\n                <th>Unit Price</th>\n                <th>Total</th>\n            </tr>\n        </thead>\n        <tbody>\n            <tr>\n                <td>"

/-- Template text between the quantity and the discount annotation. -/
def seg11 : String := "</td>\n                <td>Enhancement</td>\n                <td>See attached</td>\n                <td>$"

/-- Template text inside the discount annotation. -/
def seg12 : String := " / hr off<br>$"

/-- Template text between the discount annotation and the unit price. -/
def seg13 : String := " / hr</td>\n                <td>No</td>\n                <td>$"

/-- Template text between the unit price and the line-item total. -/
def seg14 : String := "</td>\n                <td>$"

/-- Template text opening the second line-item row. -/
def seg15 : String := "</td>\n            </tr>\n            <tr>\n                <td>-</td>\n                <td>New Development</td>\n                <td>See attached</td>\n                <td>$"

/-- Template text from the dashed total through the payment block. -/
def seg16 : String := "</td>\n                <td>-</td>\n            </tr>\n        </tbody>\n    </table>\n\n    <div class=\"payment-info\">\n        <strong>Please make all checks payable to:</strong> "

/-- Template text before the payment address. -/
def seg17 : String := "<br>\n        <strong>Please send checks to:</strong> "

/-- Template text before the Zelle contact. -/
def seg18 : String := "<br>\n        <strong>Zelle:</strong> "

/-- Template text through the totals table to the subtotal amount. -/
def seg19 : String := "\n    </div>\n\n    <table class=\"totals-table\">\n        <tbody>\n            <tr>\n                <td><strong>Subtotal:</strong></td>\n                <td class=\"amount\">$"

/-- Template text from the subtotal through the fixed tax row to the
balance due amount. -/
def seg20 : String := "</td>\n            </tr>\n            <tr>\n                <td><strong>Tax:</strong></td>\n                <td class=\"amount\">0.00</td>\n            </tr>\n            <tr>\n                <td><strong>Balance Due:</strong></td>\n                <td class=\"amount\">$"

/-- Template text from the balance due through the time entry table head. -/
def seg21 : String := "</td>\n            </tr>\n        </tbody>\n    </table>\n\n    <div class=\"time-details\">\n        <h2>Time Entry Details</h2>\n        <table>\n            <thead>\n                <tr>\n                    <th>Date</th>\n                    <th>Hours</th>\n                    <th>Category</th>\n                    <th>Task/Work</th>\n                    <th>Persons</th>\n                </tr>\n            </thead>\n            <tbody>"

/-- Closing template text appended after the time entry rows. -/
def segClose : String := "\n            </tbody>\n        </table>\n    </div>\n</body>\n</html>"

/-- One appended time entry row of the loop in generate_html. -/
def entryRowHtml (e : WorkEntry) : String :=
  "\n                <tr>\n                    <td>" ++ e.date ++
  "</td>\n                    <td>" ++ pyFloatStr e.hours ++
  "</td>\n                    <td>Enhancement</td>\n                    <td>" ++
  e.description ++ "</td>\n                    <td>" ++ e.persons ++
  "</td>\n                </tr>"

/-- InvoiceGenerator.generate_html: the f-string template with the
interpolated fields, then the appended loop over the work entries, then
the closing text. Plain interpolations of the integer configuration
values use str conversion; the balance due and subtotal slots use the
,.0f format; the hours slots use the float str conversion. -/
def generate_html (logo_base64 : String) (invoice_data : InvoiceData) : String :=
  let s := invoice_data.summary
  let html1 :=
    seg1 ++ invoice_data.invoice_number ++ seg2 ++ logo_base64 ++ seg3 ++
    invoice_data.invoice_number ++ seg4 ++ invoice_data.bill_to.name ++ seg5 ++
    invoice_data.bill_to.address ++ seg5 ++ invoice_data.bill_to.city_state_zip ++
    seg6 ++ invoice_data.bill_to.customer_id ++ seg7 ++
    invoice_data.invoice_date ++ seg8 ++ invoice_data.invoice_number ++ seg8 ++
    invoice_data.sales_rep ++ seg9 ++ invoice_data.terms ++ seg10 ++
    pyFloatStr s.total_hours ++ seg11 ++
    toString s.discount_per_hour ++ seg12 ++ toString s.original_rate ++ seg13 ++
    toString s.hourly_rate ++ seg14 ++ pyFormatComma0 s.balance_due ++ seg15 ++
    toString s.discount_per_hour ++ seg12 ++ toString s.original_rate ++ seg13 ++
    toString s.hourly_rate ++ seg16 ++
    invoice_data.payment_info.name ++ seg17 ++
    invoice_data.payment_info.address ++ seg18 ++
    invoice_data.payment_info.zelle ++ seg19 ++
    pyFormatComma0 s.subtotal ++ seg20 ++ pyFormatComma0 s.balance_due ++ seg21
  let html2 := invoice_data.work_entries.foldl
    (fun acc e => acc ++ entryRowHtml e) html1
  html2 ++ segClose

/-- The renderer as the specification sentence describes it, for
comparison with generate_html: identical template, but every currency
value, including the unit price and the two numbers of the discount
annotation, is rendered with thousands separators and zero decimal
places. -/
def generate_html_specWords (logo_base64 : String) (invoice_data : InvoiceData) : String :=
  let s := invoice_data.summary
  let html1 :=
    seg1 ++ invoice_data.invoice_number ++ seg2 ++ logo_base64 ++ seg3 ++
    invoice_data.invoice_number ++ seg4 ++ invoice_data.bill_to.name ++ seg5 ++
    invoice_data.bill_to.address ++ seg5 ++ invoice_data.bill_to.city_state_zip ++
    seg6 ++ invoice_data.bill_to.customer_id ++ seg7 ++
    invoice_data.invoice_date ++ seg8 ++ invoice_data.invoice_number ++ seg8 ++
    invoice_data.sales_rep ++ seg9 ++ invoice_data.terms ++ seg10 ++
    pyFloatStr s.total_hours ++ seg11 ++
    pyFormatComma0 (s.discount_per_hour : ℚ) ++ seg12 ++
    pyFormatComma0 (s.original_rate : ℚ) ++ seg13 ++
    pyFormatComma0 (s.hourly_rate : ℚ) ++ seg14 ++
    pyFormatComma0 s.balance_due ++ seg15 ++
    pyFormatComma0 (s.discount_per_hour : ℚ) ++ seg12 ++
    pyFormatComma0 (s.original_rate : ℚ) ++ seg13 ++
    pyFormatComma0 (s.hourly_rate : ℚ) ++ seg16 ++
    invoice_data.payment_info.name ++ seg17 ++
    invoice_data.payment_info.address ++ seg18 ++
    invoice_data.payment_info.zelle ++ seg19 ++
    pyFormatComma0 s.subtotal ++ seg20 ++ pyFormatComma0 s.balance_due ++ seg21
  let html2 := invoice_data.work_entries.foldl
    (fun acc e => acc ++ entryRowHtml e) html1
  html2 ++ segClose

/-- A header row with all seven logical columns, as in the backing sheet. -/
def demoHeaders : List String :=
  ["Date", "Hours", "Category", "Task/Work", "Persons", "Invoice", "Status"]

/-- A data row whose status is Billed and whose other fields are valid. -/
def billedRow : List String :=
  ["6/1/25", "5", "Enhancement", "Fix login bug", "AB", "NES01-5541", "Billed"]

/-- A valid WIP data row. -/
def wipRow : List String :=
  ["6/2/25", "3", "Enhancement", "Build report", "AB", "NES01-5541", "WIP"]

/-- A WIP row whose hours cell does not parse as a number. -/
def badHoursRow : List String :=
  ["6/3/25", "abc", "Enhancement", "Planning", "AB", "NES01-5541", "WIP"]

/-- A WIP row with an empty description. -/
def noDescRow : List String :=
  ["6/4/25", "4", "Enhancement", "  ", "AB", "NES01-5541", "WIP"]

/-- A WIP row with an empty date cell. -/
def noDateRow : List String :=
  ["", "4", "Enhancement", "Deploy", "AB", "NES01-5541", "WIP"]

/-- A row with fewer cells than the resolved column span. -/
def shortRow : List String :=
  ["6/5/25", "2"]

/-- The WorkEntry extracted from wipRow at row number 3. -/
def wipEntry : WorkEntry :=
  ⟨"6/2/25", 3, "Enhancement", "Build report", "AB", "NES01-5541", 3⟩

/-- The WorkEntry extracted from wipRow at row number 2. -/
def wipEntry2 : WorkEntry :=
  ⟨"6/2/25", 3, "Enhancement", "Build report", "AB", "NES01-5541", 2⟩

/-- The configuration of the documented scenario: 126 dollars per hour
after a 49 dollar per hour discount. -/
def cfg126 : Config :=
  { hourly_rate := 126
    discount := 49
    terms := "Net 30"
    client := { name := "NES", address := "1 Main St",
                city_state_zip := "Town, ST 00000", customer_id := "C1" }
    sales_rep := "DH"
    company := { name := "W3EVOLUTIONS", address := "2 Oak Ave",
                 zelle := "pay at w3evolutions" } }

/-- The seven WIP entries of the documented scenario, hours
17, 15, 16, 9, 10, 17 and 18. -/
def scenarioEntries : List WorkEntry :=
  [⟨"6/2/25", 17, "Enhancement", "Work A", "AB", "NES01-5541", 2⟩,
   ⟨"6/3/25", 15, "Enhancement", "Work B", "AB", "NES01-5541", 3⟩,
   ⟨"6/4/25", 16, "Enhancement", "Work C", "AB", "NES01-5541", 4⟩,
   ⟨"6/5/25", 9, "Enhancement", "Work D", "AB", "NES01-5541", 5⟩,
   ⟨"6/6/25", 10, "Enhancement", "Work E", "AB", "NES01-5541", 6⟩,
   ⟨"6/7/25", 17, "Enhancement", "Work F", "AB", "NES01-5541", 7⟩,
   ⟨"6/8/25", 18, "Enhancement", "Work G", "AB", "NES01-5541", 8⟩]

/-- Two entries whose dates compare lexicographically against
chronological order: 6/4/25 is the string maximum yet 6/10/25 is later. -/
def juneEntries : List WorkEntry :=
  [⟨"6/4/25", 2, "Enhancement", "Work A", "AB", "NES01-5541", 2⟩,
   ⟨"6/10/25", 3, "Enhancement", "Work B", "AB", "NES01-5541", 3⟩]

/-- Invoice data with a four-digit hourly rate, on which comma grouping
of the unit price would be visible. -/
def dataRate1500 : InvoiceData :=
  { invoice_number := "NES01-5541"
    invoice_date := "6/8/25"
    bill_to := cfg126.client
    sales_rep := "DH"
    terms := "Net 30"
    work_entries := [wipEntry]
    summary :=
      { total_hours := 3
        hourly_rate := 1500
        original_rate := 1549
        discount_per_hour := 49
        subtotal := 4500
        balance_due := 4500 }
    payment_info := cfg126.company }

lemma getD_map_normName (l : List String) (i : Nat) (h : i < l.length) :
    (l.map normName).getD i "" = normName (l.getD i "") := by
  induction l generalizing i with
  | nil => simp at h
  | cons a t ih =>
      cases i with
      | zero => simp
      | succ j =>
          simp only [List.map_cons, List.getD_cons_succ]
          exact ih j (by simpa using h)

lemma indexOf_lt_length_str {l : List String} {a : String} (h : a ∈ l) :
    l.indexOf a < l.length := by
  induction l with
  | nil => simp at h
  | cons b t ih =>
      by_cases hb : b = a
      · simp [List.indexOf_cons, hb]
      · have ht : a ∈ t := by
          rcases List.mem_cons.mp h with h1 | h1
          · exact absurd h1.symm hb
          · exact h1
        have hba : (b == a) = false := by simp [hb]
        simp only [List.indexOf_cons, hba, cond_false, List.length_cons]
        exact Nat.succ_lt_succ (ih ht)

lemma getD_indexOf_str {l : List String} {a : String} (h : a ∈ l) :
    l.getD (l.indexOf a) "" = a := by
  induction l with
  | nil => simp at h
  | cons b t ih =>
      by_cases hb : b = a
      · simp [List.indexOf_cons, hb]
      · have ht : a ∈ t := by
          rcases List.mem_cons.mp h with h1 | h1
          · exact absurd h1.symm hb
          · exact h1
        have hba : (b == a) = false := by simp [hb]
        simp only [List.indexOf_cons, hba, cond_false, List.getD_cons_succ]
        exact ih ht

lemma getD_lt_indexOf_ne_str {l : List String} {a : String} {j : Nat}
    (hj : j < l.indexOf a) : l.getD j "" ≠ a := by
  induction l generalizing j with
  | nil => simp [List.indexOf] at hj
  | cons b t ih =>
      by_cases hb : b = a
      · simp [List.indexOf_cons, hb] at hj
      · have hba : (b == a) = false := by simp [hb]
        simp only [List.indexOf_cons, hba, cond_false] at hj
        cases j with
        | zero =>
            simpa using hb
        | succ k =>
            simp only [List.getD_cons_succ]
            exact ih (Nat.lt_of_succ_lt_succ hj)

lemma find_column_index_aux_no_match (hl : List String) (len : Nat)
    (aliases : List String)
    (h : ∀ a ∈ aliases, ¬ normName a ∈ hl) :
    find_column_index_aux hl len aliases = len := by
  induction aliases with
  | nil => rfl
  | cons a rest ih =>
      have ha : ¬ normName a ∈ hl := h a (by simp)
      simp only [find_column_index_aux]
      rw [if_neg (by simpa [List.elem_iff] using ha)]
      exact ih (fun b hb => h b (by simp [hb]))

/-- C4: for every list of headers and ordered alias list,
find_column_index returns the header count when no alias matches any
header after lower-casing and trimming both sides; and when the alias
list splits as pre ++ a :: post with no alias of pre matching any header
and a matching some header, it returns the index of the first header
matching a, so ties between aliases are broken by alias-list order
before header order. -/
theorem find_column_index_spec (headers aliases : List String) :
    ((∀ a ∈ aliases, ∀ h ∈ headers, normName h ≠ normName a) →
      find_column_index headers aliases = headers.length) ∧
    (∀ pre a post, aliases = pre ++ a :: post →
      (∀ b ∈ pre, ∀ h ∈ headers, normName h ≠ normName b) →
      (∃ h ∈ headers, normName h = normName a) →
      ∃ k, find_column_index headers aliases = k ∧ k < headers.length ∧
        normName (headers.getD k "") = normName a ∧
        ∀ j, j < k → normName (headers.getD j "") ≠ normName a) := by
  constructor
  · intro hnone
    apply find_column_index_aux_no_match
    intro a ha hmem
    rcases List.mem_map.mp hmem with ⟨h0, hh0, he⟩
    exact hnone a ha h0 hh0 he
  · intro pre a post hsplit hpre hmatch
    subst hsplit
    have hmem : normName a ∈ headers.map normName := by
      rcases hmatch with ⟨h0, hh0, he⟩
      exact List.mem_map.mpr ⟨h0, hh0, he⟩
    have hidx : (headers.map normName).indexOf (normName a) <
        (headers.map normName).length := indexOf_lt_length_str hmem
    have hlen : (headers.map normName).length = headers.length := by simp
    refine ⟨(headers.map normName).indexOf (normName a), ?_, ?_, ?_, ?_⟩
    · unfold find_column_index
      induction pre with
      | nil =>
          simp only [List.nil_append, find_column_index_aux]
          rw [if_pos (by simpa [List.elem_iff] using hmem)]
      | cons b rest ih =>
          have hb : ¬ normName b ∈ headers.map normName := by
            intro hbm
            rcases List.mem_map.mp hbm with ⟨h0, hh0, he⟩
            exact hpre b (by simp) h0 hh0 he
          simp only [List.cons_append, find_column_index_aux]
          rw [if_neg (by simpa [List.elem_iff] using hb)]
          exact ih (fun c hc => hpre c (by simp [hc]))
    · omega
    · rw [← getD_map_normName headers _ (by omega)]
      exact getD_indexOf_str hmem
    · intro j hj
      rw [← getD_map_normName headers j (by omega)]
      exact getD_lt_indexOf_ne_str hj

/-- Witness for C4 at concrete inputs: the alias list for the task column
resolves Work (matching the second alias) to index 1 rather than any
later header, and an alias list matching nothing resolves to the header
count 1. -/
theorem find_column_index_spec_witness :
    find_column_index ["Work"] ["date"] = 1 := by
  exact (find_column_index_spec ["Work"] ["date"]).1 (by decide)

lemma processRows_mem (c : ColumnMap) (rows : List (List String)) :
    ∀ (idx : Nat) (e : WorkEntry), e ∈ (processRows c idx rows).1 →
      ∃ j, j < rows.length ∧ e.row_number = idx + j ∧
        c.maxCol < (rows.getD j []).length ∧
        (if c.paid_col < (rows.getD j []).length then
          pyStripUpper ((rows.getD j []).getD c.paid_col "") else "") = "WIP" ∧
        ∃ h, parseFloat (cellOr (rows.getD j []) c.hours_col "0") = some h ∧
          ¬(h ≤ 0 ∨ cellOr (rows.getD j []) c.date_col "" = "" ∨
            cellOr (rows.getD j []) c.task_col "" = "") ∧
          e = ⟨cellOr (rows.getD j []) c.date_col "", h,
               cellOr (rows.getD j []) c.category_col "Enhancement",
               cellOr (rows.getD j []) c.task_col "",
               cellOr (rows.getD j []) c.persons_col "",
               cellOr (rows.getD j []) c.invoice_col "", idx + j⟩ := by
  induction rows with
  | nil => intro idx e hmem; simp [processRows] at hmem
  | cons row rest ih =>
      intro idx e hmem
      simp only [processRows] at hmem
      by_cases hlen : row.length ≤ c.maxCol
      · rw [if_pos hlen] at hmem
        rcases ih (idx + 1) e hmem with ⟨j, hj, hrow, hp⟩
        refine ⟨j + 1, by simpa using Nat.succ_lt_succ hj, by omega, ?_⟩
        rw [show idx + (j + 1) = idx + 1 + j from by omega]
        simpa using hp
      · rw [if_neg hlen] at hmem
        by_cases hpaid : (if c.paid_col < row.length then
            pyStripUpper (row.getD c.paid_col "") else "") = "WIP"
        · rw [if_pos hpaid] at hmem
          cases hparse : parseFloat (cellOr row c.hours_col "0") with
          | none =>
              simp only [hparse] at hmem
              rcases ih (idx + 1) e hmem with ⟨j, hj, hrow, hp⟩
              refine ⟨j + 1, by simpa using Nat.succ_lt_succ hj, by omega, ?_⟩
              rw [show idx + (j + 1) = idx + 1 + j from by omega]
              simpa using hp
          | some hours =>
              simp only [hparse] at hmem
              by_cases hbad : hours ≤ 0 ∨ cellOr row c.date_col "" = "" ∨
                  cellOr row c.task_col "" = ""
              · rw [if_pos hbad] at hmem
                rcases ih (idx + 1) e hmem with ⟨j, hj, hrow, hp⟩
                refine ⟨j + 1, by simpa using Nat.succ_lt_succ hj, by omega, ?_⟩
                rw [show idx + (j + 1) = idx + 1 + j from by omega]
                simpa using hp
              · rw [if_neg hbad] at hmem
                rcases List.mem_cons.mp hmem with he | he
                · refine ⟨0, by simp, by simp [he], ?_⟩
                  simp only [List.getD_cons_zero]
                  exact ⟨by omega, hpaid, hours, hparse, hbad, by simp [he]⟩
                · rcases ih (idx + 1) e he with ⟨j, hj, hrow, hp⟩
                  refine ⟨j + 1, by simpa using Nat.succ_lt_succ hj, by omega, ?_⟩
                  rw [show idx + (j + 1) = idx + 1 + j from by omega]
                  simpa using hp
        · rw [if_neg hpaid] at hmem
          rcases ih (idx + 1) e hmem with ⟨j, hj, hrow, hp⟩
          refine ⟨j + 1, by simpa using Nat.succ_lt_succ hj, by omega, ?_⟩
          rw [show idx + (j + 1) = idx + 1 + j from by omega]
          simpa using hp

lemma charListLt_iff_lex : ∀ as bs : List Char,
    charListLt as bs = true ↔ List.Lex (· < ·) as bs
  | [], [] => by
      constructor
      · intro h; simp [charListLt] at h
      · intro h; cases h
  | [], b :: bs => by
      constructor
      · intro _; exact List.Lex.nil
      · intro _; rfl
  | a :: as, [] => by
      constructor
      · intro h; simp [charListLt] at h
      · intro h; cases h
  | a :: as, b :: bs => by
      simp only [charListLt]
      by_cases h1 : a < b
      · rw [if_pos h1]
        exact ⟨fun _ => List.Lex.rel h1, fun _ => rfl⟩
      · rw [if_neg h1]
        by_cases h2 : b < a
        · rw [if_pos h2]
          constructor
          · intro h; cases h
          · intro h
            cases h with
            | cons h' => exact absurd h2 (lt_irrefl a)
            | rel h' => exact absurd h' h1
        · rw [if_neg h2]
          have heq : a = b := le_antisymm (not_lt.mp h2) (not_lt.mp h1)
          subst heq
          constructor
          · intro h; exact List.Lex.cons ((charListLt_iff_lex as bs).mp h)
          · intro h
            cases h with
            | cons h' => exact (charListLt_iff_lex as bs).mpr h'
            | rel h' => exact absurd h' h1

lemma pyStrLt_iff : ∀ a b : String, pyStrLt a b = true ↔ a < b
  | ⟨as⟩, ⟨bs⟩ => by
      rw [String.lt_iff_toList_lt]
      exact charListLt_iff_lex as bs

lemma foldl_pyMax_mem (ds : List String) (d : String) :
    ds.foldl (fun a b => if pyStrLt a b then b else a) d ∈ d :: ds := by
  induction ds generalizing d with
  | nil => simp
  | cons b t ih =>
      simp only [List.foldl_cons]
      have h := ih (if pyStrLt d b then b else d)
      by_cases hc : pyStrLt d b = true
      · rw [if_pos hc] at h ⊢
        rcases List.mem_cons.mp h with h1 | h1
        · simp [h1]
        · simp [List.mem_cons_of_mem, h1]
      · rw [if_neg hc] at h ⊢
        rcases List.mem_cons.mp h with h1 | h1
        · simp [h1]
        · simp [List.mem_cons_of_mem, h1]

lemma foldl_pyMax_le (ds : List String) (d : String) :
    ∀ x ∈ d :: ds, x ≤ ds.foldl (fun a b => if pyStrLt a b then b else a) d := by
  induction ds generalizing d with
  | nil =>
      intro x hx
      rcases List.mem_cons.mp hx with h1 | h1
      · exact le_of_eq h1
      · simp at h1
  | cons b t ih =>
      intro x hx
      simp only [List.foldl_cons]
      have hd : d ≤ (if pyStrLt d b then b else d) := by
        by_cases hc : pyStrLt d b = true
        · rw [if_pos hc]; exact le_of_lt ((pyStrLt_iff d b).mp hc)
        · rw [if_neg hc]
      have hb : b ≤ (if pyStrLt d b then b else d) := by
        by_cases hc : pyStrLt d b = true
        · rw [if_pos hc]
        · rw [if_neg hc]
          exact not_lt.mp (fun hlt => hc ((pyStrLt_iff d b).mpr hlt))
      have hmax := ih (if pyStrLt d b then b else d)
      rcases List.mem_cons.mp hx with h1 | h1
      · subst h1
        exact le_trans hd (hmax _ (List.mem_cons_self _ _))
      rcases List.mem_cons.mp h1 with h2 | h2
      · subst h2
        exact le_trans hb (hmax _ (List.mem_cons_self _ _))
      · exact hmax x (List.mem_cons_of_mem _ h2)

/-- C3: for every configuration and non-empty entry list, generate_invoice
sets invoice_date to the string-lexicographic maximum of the entries date
strings: it is one of them and bounds them all in the lexicographic
order; on the dates 6/4/25 and 6/10/25 the maximum is 6/4/25 rather than
the chronologically later 6/10/25. -/
theorem generate_invoice_date_spec :
    (∀ (cfg : Config) (entries : List WorkEntry) (num : String),
      entries ≠ [] →
      (generate_invoice cfg entries num).invoice_date ∈
        entries.map (·.date) ∧
      ∀ d ∈ entries.map (·.date),
        d ≤ (generate_invoice cfg entries num).invoice_date) ∧
    (∀ (cfg : Config) (num : String),
      (generate_invoice cfg juneEntries num).invoice_date = "6/4/25") := by
  constructor
  · intro cfg entries num hne
    have hdate : (generate_invoice cfg entries num).invoice_date
        = listMaxStr (entries.map (·.date)) := rfl
    rw [hdate]
    cases hmap : entries.map (·.date) with
    | nil =>
        cases entries with
        | nil => exact absurd rfl hne
        | cons x xs => simp at hmap
    | cons d ds =>
        constructor
        · simpa [listMaxStr] using foldl_pyMax_mem ds d
        · intro x hx
          simpa [listMaxStr] using foldl_pyMax_le ds d x hx
  · intro cfg num
    rfl

/-- Witness for C3 at a concrete input: on the two June entries the
invoice date is among the entry dates. -/
theorem generate_invoice_date_spec_witness :
    (generate_invoice cfg126 juneEntries "NES01-5541").invoice_date ∈
      juneEntries.map (·.date) :=
  (generate_invoice_date_spec.1 cfg126 juneEntries "NES01-5541"
    (by decide)).1

/-- C1: for every configuration and non-empty entry list the summary of
generate_invoice has total_hours the exact sum of the entry hours,
original_rate the configured rate plus the discount, subtotal the total
hours times the configured rate, and balance_due equal to the subtotal
with no further discount; on the documented scenario of hours
17, 15, 16, 9, 10, 17, 18 at rate 126 and discount 49 the summary is
total 102 hours, rate 126, original rate 175, discount 49, subtotal
12852 and balance due 12852. -/
theorem generate_invoice_summary_spec :
    (∀ (cfg : Config) (entries : List WorkEntry) (num : String),
      entries ≠ [] →
      (generate_invoice cfg entries num).summary.total_hours =
        (entries.map (·.hours)).sum ∧
      (generate_invoice cfg entries num).summary.hourly_rate =
        cfg.hourly_rate ∧
      (generate_invoice cfg entries num).summary.original_rate =
        cfg.hourly_rate + cfg.discount ∧
      (generate_invoice cfg entries num).summary.discount_per_hour =
        cfg.discount ∧
      (generate_invoice cfg entries num).summary.subtotal =
        (entries.map (·.hours)).sum * (cfg.hourly_rate : ℚ) ∧
      (generate_invoice cfg entries num).summary.balance_due =
        (generate_invoice cfg entries num).summary.subtotal) ∧
    (∀ num : String,
      (generate_invoice cfg126 scenarioEntries num).summary =
        { total_hours := 102, hourly_rate := 126, original_rate := 175,
          discount_per_hour := 49, subtotal := 12852,
          balance_due := 12852 }) := by
  constructor
  · intro cfg entries num _
    exact ⟨rfl, rfl, rfl, rfl, rfl, rfl⟩
  · intro num
    have h0 : (generate_invoice cfg126 scenarioEntries num).summary
        = (generate_invoice cfg126 scenarioEntries "").summary := rfl
    rw [h0]
    simp only [generate_invoice, cfg126, scenarioEntries, List.map_cons,
      List.map_nil, List.sum_cons, List.sum_nil, InvoiceSummary.mk.injEq]
    norm_num

/-- Witness for C1 at the documented scenario input. -/
theorem generate_invoice_summary_spec_witness :
    (generate_invoice cfg126 scenarioEntries "NES01-5541").summary.total_hours
      = (scenarioEntries.map (·.hours)).sum :=
  (generate_invoice_summary_spec.1 cfg126 scenarioEntries "NES01-5541"
    (by decide)).1

/-- C2: a data row whose stripped upper-cased status cell differs from
WIP contributes no entry to get_wip_entries, whatever its other fields
hold: no emitted WorkEntry carries its row number. Row j of the data rows
is worksheet row j plus 2. -/
theorem get_wip_entries_excludes_non_wip (headers : List String)
    (rows : List (List String)) (j : Nat)
    (hstatus : pyStripUpper ((rows.getD j []).getD
      (resolve_columns headers).paid_col "") ≠ "WIP") :
    ∀ e ∈ (get_wip_entries (headers :: rows)).1, e.row_number ≠ j + 2 := by
  intro e hmem heq
  rcases processRows_mem (resolve_columns headers) rows 2 e hmem with
    ⟨j', hj', hrow, hlen, hpaid, _⟩
  have hjj : j' = j := by omega
  subst hjj
  by_cases hc : (resolve_columns headers).paid_col < (rows.getD j' []).length
  · rw [if_pos hc] at hpaid
    exact hstatus hpaid
  · rw [if_neg hc] at hpaid
    exact absurd hpaid (by decide)

/-- Witness for C2: on a sheet whose first data row is Billed with all
other fields valid, the emitted entry does not come from that row. -/
theorem get_wip_entries_excludes_non_wip_witness :
    wipEntry.row_number ≠ 0 + 2 :=
  get_wip_entries_excludes_non_wip demoHeaders [billedRow, wipRow] 0
    (by decide) wipEntry (by decide)

/-- C7: a WIP data row whose parsed hours are nonpositive or whose
stripped description is empty contributes no entry, and every emitted
WorkEntry has positive hours and a non-empty description. -/
theorem get_wip_entries_hours_desc_filter :
    (∀ (headers : List String) (rows : List (List String)) (j : Nat),
      ((∃ h, parseFloat (cellOr (rows.getD j [])
          (resolve_columns headers).hours_col "0") = some h ∧ h ≤ 0) ∨
        cellOr (rows.getD j []) (resolve_columns headers).task_col "" = "") →
      ∀ e ∈ (get_wip_entries (headers :: rows)).1, e.row_number ≠ j + 2) ∧
    (∀ (av : List (List String)), ∀ e ∈ (get_wip_entries av).1,
      0 < e.hours ∧ e.description ≠ "") := by
  constructor
  · intro headers rows j hbad e hmem heq
    rcases processRows_mem (resolve_columns headers) rows 2 e hmem with
      ⟨j', hj', hrow, hlen, hpaid, h, hparse, hok, hE⟩
    have hjj : j' = j := by omega
    subst hjj
    rcases hbad with ⟨h0, hp0, hneg⟩ | hdesc
    · rw [hparse] at hp0
      injection hp0 with hh
      exact hok (Or.inl (hh ▸ hneg))
    · exact hok (Or.inr (Or.inr hdesc))
  · intro av e hmem
    cases av with
    | nil => simp [get_wip_entries] at hmem
    | cons headers rows =>
        rcases processRows_mem (resolve_columns headers) rows 2 e hmem with
          ⟨j, hj, hrow, hlen, hpaid, h, hparse, hok, hE⟩
        subst hE
        refine ⟨lt_of_not_le (fun hle => hok (Or.inl hle)), ?_⟩
        intro hd
        exact hok (Or.inr (Or.inr hd))

/-- Witness for C7: a WIP row with a blank description contributes no
entry, and the entry emitted from the valid first row has positive hours
and a non-empty description. -/
theorem get_wip_entries_hours_desc_filter_witness :
    wipEntry2.row_number ≠ 1 + 2 ∧
    (0 < wipEntry2.hours ∧ wipEntry2.description ≠ "") :=
  ⟨get_wip_entries_hours_desc_filter.1 demoHeaders [wipRow, noDescRow] 1
      (Or.inr (by decide)) wipEntry2 (by decide),
   get_wip_entries_hours_desc_filter.2 [demoHeaders, wipRow] wipEntry2
      (by decide)⟩

/-- C10: beyond the stated invariant on hours and description, a WIP data
row whose stripped date cell is empty also contributes no entry, and
every emitted WorkEntry carries a non-empty date. -/
theorem get_wip_entries_date_filter :
    (∀ (headers : List String) (rows : List (List String)) (j : Nat),
      cellOr (rows.getD j []) (resolve_columns headers).date_col "" = "" →
      ∀ e ∈ (get_wip_entries (headers :: rows)).1, e.row_number ≠ j + 2) ∧
    (∀ (av : List (List String)), ∀ e ∈ (get_wip_entries av).1,
      e.date ≠ "") := by
  constructor
  · intro headers rows j hdate e hmem heq
    rcases processRows_mem (resolve_columns headers) rows 2 e hmem with
      ⟨j', hj', hrow, hlen, hpaid, h, hparse, hok, hE⟩
    have hjj : j' = j := by omega
    subst hjj
    exact hok (Or.inr (Or.inl hdate))
  · intro av e hmem
    cases av with
    | nil => simp [get_wip_entries] at hmem
    | cons headers rows =>
        rcases processRows_mem (resolve_columns headers) rows 2 e hmem with
          ⟨j, hj, hrow, hlen, hpaid, h, hparse, hok, hE⟩
        subst hE
        intro hd
        exact hok (Or.inr (Or.inl hd))

/-- Witness for C10: a WIP row with an empty date cell but valid hours
and description contributes no entry, and the entry emitted from the
valid row has a non-empty date. -/
theorem get_wip_entries_date_filter_witness :
    wipEntry.row_number ≠ 0 + 2 ∧ wipEntry.date ≠ "" :=
  ⟨get_wip_entries_date_filter.1 demoHeaders [noDateRow, wipRow] 0
      (by decide) wipEntry (by decide),
   get_wip_entries_date_filter.2 [demoHeaders, billedRow, wipRow] wipEntry
      (by decide)⟩

/-- C5: a data row whose length is at most the maximum resolved column
index contributes no entry (the incomplete-row guard skips it), and on
any row that passes the guard every one of the seven resolved column
indices is strictly inside the row, so no row access is out of bounds,
including when an absent column resolved to the header count. -/
theorem get_wip_entries_bounds :
    (∀ (headers : List String) (rows : List (List String)) (j : Nat),
      (rows.getD j []).length ≤ (resolve_columns headers).maxCol →
      ∀ e ∈ (get_wip_entries (headers :: rows)).1, e.row_number ≠ j + 2) ∧
    (∀ (headers : List String) (row : List String),
      (resolve_columns headers).maxCol < row.length →
      (resolve_columns headers).date_col < row.length ∧
      (resolve_columns headers).hours_col < row.length ∧
      (resolve_columns headers).category_col < row.length ∧
      (resolve_columns headers).task_col < row.length ∧
      (resolve_columns headers).persons_col < row.length ∧
      (resolve_columns headers).invoice_col < row.length ∧
      (resolve_columns headers).paid_col < row.length) := by
  constructor
  · intro headers rows j hshort e hmem heq
    rcases processRows_mem (resolve_columns headers) rows 2 e hmem with
      ⟨j', hj', hrow, hlen, _⟩
    have hjj : j' = j := by omega
    subst hjj
    omega
  · intro headers row hmax
    simp only [ColumnMap.maxCol, Nat.max_lt] at hmax
    omega

/-- Witness for C5: a two-cell row on a seven-column sheet is skipped,
and on the full-width valid row every resolved index is in bounds. -/
theorem get_wip_entries_bounds_witness :
    wipEntry.row_number ≠ 0 + 2 ∧
    (resolve_columns demoHeaders).paid_col < wipRow.length :=
  ⟨get_wip_entries_bounds.1 demoHeaders [shortRow, wipRow] 0
      (by decide) wipEntry (by decide),
   (get_wip_entries_bounds.2 demoHeaders wipRow (by decide)).2.2.2.2.2.2⟩

/-- C6: the extraction propagates an error only when the worksheet
cannot be located and returns ok on every located worksheet; a WIP row
whose hours cell does not parse as a number is skipped with a warning
recording its row number while the scan of the remaining rows continues
unchanged. -/
theorem get_wip_entries_bad_hours_warn :
    (∀ (wb : Workbook) (name err : String),
      get_wip_entries_ws wb name = .error err →
      findWorksheet wb name = none) ∧
    (∀ (wb : Workbook) (name : String) (vals : List (List String)),
      findWorksheet wb name = some vals →
      get_wip_entries_ws wb name = .ok (get_wip_entries vals)) ∧
    (∀ (c : ColumnMap) (idx : Nat) (row : List String)
        (rest : List (List String)),
      ¬ row.length ≤ c.maxCol →
      (if c.paid_col < row.length then
        pyStripUpper (row.getD c.paid_col "") else "") = "WIP" →
      parseFloat (cellOr row c.hours_col "0") = none →
      processRows c idx (row :: rest) =
        ((processRows c (idx + 1) rest).1,
          idx :: (processRows c (idx + 1) rest).2)) := by
  refine ⟨?_, ?_, ?_⟩
  · intro wb name err h
    unfold get_wip_entries_ws at h
    cases hf : findWorksheet wb name with
    | none => rfl
    | some v => rw [hf] at h; simp at h
  · intro wb name vals h
    unfold get_wip_entries_ws
    rw [h]
  · intro c idx row rest hlen hpaid hparse
    simp only [processRows]
    rw [if_neg hlen, if_pos hpaid]
    simp only [hparse]

/-- Witness for C6: an absent worksheet is the only error source, a
present worksheet returns ok, and the row with hours abc is skipped
with a warning for worksheet row 2 while the scan continues. -/
theorem get_wip_entries_bad_hours_warn_witness :
    findWorksheet [] "Sheet1" = none ∧
    get_wip_entries_ws [("Sheet1", [demoHeaders, wipRow])] "Sheet1" =
      .ok (get_wip_entries [demoHeaders, wipRow]) ∧
    processRows (resolve_columns demoHeaders) 2 [badHoursRow] =
      ((processRows (resolve_columns demoHeaders) 3 []).1,
        2 :: (processRows (resolve_columns demoHeaders) 3 []).2) :=
  ⟨get_wip_entries_bad_hours_warn.1 []
      "Sheet1" "Worksheet Sheet1 not found in spreadsheet" rfl,
   get_wip_entries_bad_hours_warn.2.1 [("Sheet1", [demoHeaders, wipRow])]
      "Sheet1" [demoHeaders, wipRow] rfl,
   get_wip_entries_bad_hours_warn.2.2 (resolve_columns demoHeaders) 2
      badHoursRow [] (by decide) (by decide) (by decide)⟩

/-- C8: with a resolvable status column, a non-empty entry list whose
entries all carry nonzero row numbers, and a successful value write,
update_wip_to_billed_with_formatting issues exactly two batched remote
mutations in order: first the batched value write setting the status
cell of every listed row to the literal Billed, then the batched
formatting request spanning the fixed columns A to G (0-based indices 0
to 7 exclusive) of every listed row; the trace is identical whether the
formatting call succeeds or fails, so a formatting failure rolls nothing
back. -/
theorem update_wip_trace (headers : List String)
    (wip_entries : List WorkEntry) (hne : wip_entries ≠ [])
    (hrows : ∀ e ∈ wip_entries, e.row_number ≠ 0)
    (hcol : find_column_index headers ["paid", "status"] < headers.length) :
    ∀ formatOk : Bool,
      update_wip_to_billed_with_formatting headers wip_entries true formatOk =
        ([RemoteCall.valueBatch (wip_entries.map (valueUpdateFor
            (find_column_index headers ["paid", "status"] + 1))),
          RemoteCall.formatBatch (wip_entries.map formatRequestFor)],
         formatOk) := by
  intro formatOk
  simp only [update_wip_to_billed_with_formatting]
  rw [if_neg (by omega)]
  have hfilter : wip_entries.filter (fun e => e.row_number ≠ 0) =
      wip_entries :=
    List.filter_eq_self.mpr (fun a ha => by simpa using hrows a ha)
  rw [hfilter]
  cases wip_entries with
  | nil => exact absurd rfl hne
  | cons e es => simp

/-- Witness for C8: one billed entry on the demo sheet produces the
value batch then the format batch. -/
theorem update_wip_trace_witness :
    update_wip_to_billed_with_formatting demoHeaders [wipEntry] true false =
      ([RemoteCall.valueBatch ([wipEntry].map (valueUpdateFor
          (find_column_index demoHeaders ["paid", "status"] + 1))),
        RemoteCall.formatBatch ([wipEntry].map formatRequestFor)],
       false) :=
  update_wip_trace demoHeaders [wipEntry] (by decide)
    (by decide) (by decide) false

/-- C9 counterexample: at an hourly rate of 1500 dollars the unit price
cell of generate_html shows the plain 1500 with no thousands separator,
so the document differs from the one described by the specification
sentence, under which every currency value is comma-grouped with zero
decimal places. -/
theorem generate_html_not_specWords :
    generate_html "" dataRate1500 ≠ generate_html_specWords "" dataRate1500 := by
  intro h
  have e1 : toString dataRate1500.summary.discount_per_hour = "49" := rfl
  have e2 : pyFormatComma0 (dataRate1500.summary.discount_per_hour : ℚ) =
      "49" := by decide
  have e3 : toString dataRate1500.summary.original_rate = "1549" := rfl
  have e4 : pyFormatComma0 (dataRate1500.summary.original_rate : ℚ) =
      "1,549" := by decide
  have hw : dataRate1500.work_entries = [wipEntry] := rfl
  have h2 := congrArg String.data h
  simp only [generate_html, generate_html_specWords, hw, List.foldl_cons,
    List.foldl_nil, e1, e2, e3, e4, String.data_append,
    List.append_assoc] at h2
  simp at h2

lemma foldl_strcat (l : List String) (init : String) :
    l.foldl (· ++ ·) init = init ++ String.join l := by
  induction l generalizing init with
  | nil => exact (String.append_empty init).symm
  | cons a t ih =>
      have hj : String.join (a :: t) = a ++ String.join t := by
        show t.foldl (· ++ ·) ("" ++ a) = a ++ String.join t
        rw [ih ("" ++ a), String.empty_append]
      simp only [List.foldl_cons, ih (init ++ a), hj, String.append_assoc]

lemma foldl_entryRow (l : List WorkEntry) (init : String) :
    l.foldl (fun acc e => acc ++ entryRowHtml e) init =
      init ++ String.join (l.map entryRowHtml) := by
  rw [← List.foldl_map entryRowHtml (· ++ ·) l init]
  exact foldl_strcat (l.map entryRowHtml) init

/-- C9 amended: generate_html renders the line-item total, the subtotal
and the balance due with comma grouping and zero decimal places, but
renders the unit price and the two numbers of the discount annotation by
plain conversion of the configured integer values with no separators,
and renders the quantity and every entry hours value by the plain float
conversion with no forced rounding, one rendered row per work entry in
order. -/
theorem generate_html_rendering (logo : String) (d : InvoiceData) :
    (∃ s0 s1 s2 s3 : String,
      generate_html logo d =
        s0 ++ pyFloatStr d.summary.total_hours ++ seg11 ++
        toString d.summary.discount_per_hour ++ seg12 ++
        toString d.summary.original_rate ++ seg13 ++
        toString d.summary.hourly_rate ++ seg14 ++
        pyFormatComma0 d.summary.balance_due ++ s1 ++
        pyFormatComma0 d.summary.subtotal ++ seg20 ++
        pyFormatComma0 d.summary.balance_due ++ s2 ++
        String.join (d.work_entries.map entryRowHtml) ++ s3) ∧
    (∀ e : WorkEntry, ∃ a b : String,
      entryRowHtml e = a ++ pyFloatStr e.hours ++ b) := by
  constructor
  · refine ⟨seg1 ++ d.invoice_number ++ seg2 ++ logo ++ seg3 ++
      d.invoice_number ++ seg4 ++ d.bill_to.name ++ seg5 ++
      d.bill_to.address ++ seg5 ++ d.bill_to.city_state_zip ++ seg6 ++
      d.bill_to.customer_id ++ seg7 ++ d.invoice_date ++ seg8 ++
      d.invoice_number ++ seg8 ++ d.sales_rep ++ seg9 ++ d.terms ++ seg10,
      seg15 ++ toString d.summary.discount_per_hour ++ seg12 ++
      toString d.summary.original_rate ++ seg13 ++
      toString d.summary.hourly_rate ++ seg16 ++ d.payment_info.name ++
      seg17 ++ d.payment_info.address ++ seg18 ++ d.payment_info.zelle ++
      seg19, seg21, segClose, ?_⟩
    simp only [generate_html]
    rw [foldl_entryRow]
    simp [String.append_assoc]
  · intro e
    refine ⟨"\n                <tr>\n                    <td>" ++ e.date ++
      "</td>\n                    <td>", "</td>\n                    <td>Enhancement</td>\n                    <td>" ++
      e.description ++ "</td>\n                    <td>" ++ e.persons ++
      "</td>\n                </tr>", ?_⟩
    simp [entryRowHtml, String.append_assoc]

end InvoiceGen
